import Mathlib

/-! Formal model of the tg_srv bootstrap handshake server (src/main.rs) and
theorems settling the specification claims against the code. Machine bytes
are modelled as Nat values below 256, signed 64-bit fields as Int via a
two-complement reinterpretation, and the blocking byte stream of a
connection as a list of bytes: a Rust read call on such a stream returns
min(requested, remaining) bytes, and read_exact fails with an io error when
fewer bytes remain than requested. -/

namespace TgSrv

/-- Little-endian byte decomposition: the k low-order base-256 digits of n. -/
def leBytes : Nat → Nat → List Nat
  | 0, _ => []
  | k + 1, n => n % 256 :: leBytes k (n / 256)

/-- Little-endian recomposition of a byte list. -/
def fromLE : List Nat → Nat
  | [] => 0
  | b :: bs => b + 256 * fromLE bs

/-- Reinterpretation of a 64-bit pattern (a Nat below 2 ^ 64) as a signed
64-bit value. -/
def toSigned64 (m : Nat) : Int :=
  if m < 2 ^ 63 then (m : Int) else (m : Int) - 2 ^ 64

/-! Binary cursor codec, modelled from the grammers_tl_types crate used by
src/main.rs: fixed-width little-endian integers, raw byte arrays, TL byte
strings and TL vectors. Reading fails with an unexpected end of input error
when fewer bytes remain than the type requires. -/

inductive DeserError
  | unexpectedEof
deriving DecidableEq

/-- Cursor read of a signed 64-bit little-endian integer. -/
def deserI64 (s : List Nat) : Except DeserError (Int × List Nat) :=
  if s.length < 8 then .error .unexpectedEof
  else .ok (toSigned64 (fromLE (s.take 8)), s.drop 8)

/-- Cursor read of an unsigned 32-bit little-endian integer. -/
def deserU32 (s : List Nat) : Except DeserError (Nat × List Nat) :=
  if s.length < 4 then .error .unexpectedEof
  else .ok (fromLE (s.take 4), s.drop 4)

/-- Cursor read of a raw 16 byte array. -/
def deserBytes16 (s : List Nat) : Except DeserError (List Nat × List Nat) :=
  if s.length < 16 then .error .unexpectedEof
  else .ok (s.take 16, s.drop 16)

/-- Serialization of a signed 64-bit integer: its two-complement bit pattern
in little-endian order. -/
def i64ser (v : Int) : List Nat := leBytes 8 (v % (2 ^ 64 : Int)).toNat

/-- Serialization of an unsigned 32-bit integer in little-endian order. -/
def u32ser (n : Nat) : List Nat := leBytes 4 (n % 2 ^ 32)

/-- TL byte-string serialization: one length byte (for lengths below 254),
the bytes, and zero padding to a 4 byte boundary; longer strings use marker
254 and a 3 byte little-endian length. -/
def bytesSer (b : List Nat) : List Nat :=
  if b.length ≤ 253 then
    (b.length :: b) ++ List.replicate ((4 - (b.length + 1) % 4) % 4) 0
  else
    (254 :: (leBytes 3 b.length ++ b)) ++ List.replicate ((4 - b.length % 4) % 4) 0

/-- TL vector of signed 64-bit values: the vector constructor tag 0x1cb5c415,
the element count, then the elements. -/
def vecI64ser (xs : List Int) : List Nat :=
  u32ser 0x1cb5c415 ++ u32ser xs.length ++ (xs.map i64ser).flatten

deriving instance DecidableEq for Except

/-! Message types from src/main.rs. -/

structure ReqPqMulti where
  auth_key_id : Int
  message_id : Int
  message_length : Nat
  magic : Nat
  nonce : List Nat
deriving DecidableEq

/-- ReqPqMulti parse (src/main.rs lines 112 to 122): five fields read in
fixed order with the cursor codec; any field failure propagates. The unread
remainder of the cursor is returned to the caller and never inspected. -/
def ReqPqMulti.parse (s : List Nat) : Except DeserError (ReqPqMulti × List Nat) := do
  let (auth_key_id, s) ← deserI64 s
  let (message_id, s) ← deserI64 s
  let (message_length, s) ← deserU32 s
  let (magic, s) ← deserU32 s
  let (nonce, s) ← deserBytes16 s
  pure ({ auth_key_id, message_id, message_length, magic, nonce }, s)

structure ResPq where
  auth_key_id : Int
  message_id : Int
  message_length : Nat
  magic : Nat
  nonce : List Nat
  server_nonce : List Nat
  pq : List Nat
  server_public_key_fingerprints : List Int
deriving DecidableEq

/-- SERVER_NONCE (src/main.rs line 15): the 16 little-endian bytes of the
u128 value 0x1337. -/
def SERVER_NONCE : List Nat := leBytes 16 0x1337

/-- ResPq.generate (src/main.rs lines 136 to 152). The current time enters
as nowNanos, the nanoseconds since the unix epoch as obtained from
SystemTime. The Rust code casts this u128 count to i64, which keeps the low
64 bits and reinterprets them as signed. -/
def ResPq.generate (nowNanos : Nat) (nonce : List Nat) (pq : List Nat) : ResPq :=
  { auth_key_id := 0
    message_id := toSigned64 (nowNanos % 2 ^ 64)
    message_length := 0
    magic := 0x05162463
    nonce := nonce
    server_nonce := SERVER_NONCE
    pq := pq
    server_public_key_fingerprints := [toSigned64 0xd09d1d85de64fd85] }

/-- ResPq.ser (src/main.rs lines 154 to 165): all eight fields serialized in
declaration order with the cursor codec. -/
def ResPq.ser (r : ResPq) : List Nat :=
  i64ser r.auth_key_id ++ i64ser r.message_id ++ u32ser r.message_length ++
    u32ser r.magic ++ r.nonce ++ r.server_nonce ++ bytesSer r.pq ++
    vecI64ser r.server_public_key_fingerprints

/-- Pack of the Abridged transport, modelled from the grammers_mtproto crate
for a freshly constructed transport as on src/main.rs line 81: the first
pack emits the transport tag byte 0xef, then the payload length in 4 byte
units (one byte when the unit count is below 127, otherwise 0x7f and a
3 byte little-endian count), then the payload itself. -/
def abridgedPack (payload : List Nat) : List Nat :=
  0xef :: ((if payload.length / 4 < 127 then [payload.length / 4]
    else 0x7f :: leBytes 3 (payload.length / 4)) ++ payload)

/-- Keystream application model for the AES-256-CTR ciphers: a keystream is
a function from byte position to keystream byte and is combined with the
data by xor. The position argument threads the stateful advance of the
cipher objects in src/main.rs across calls. -/
def xorKS (ks : Nat → Nat) : Nat → List Nat → List Nat
  | _, [] => []
  | pos, b :: bs => Nat.xor b (ks pos % 256) :: xorKS ks (pos + 1) bs

/-- encrypt_key (src/main.rs line 45): init bytes 8 to 39 in order. -/
def encrypt_key (init : List Nat) : List Nat := (init.drop 8).take 32

/-- encrypt_iv (src/main.rs line 46): init bytes 40 to 55 in order. -/
def encrypt_iv (init : List Nat) : List Nat := (init.drop 40).take 16

/-- decrypt_key (src/main.rs line 50): reverse the 64 byte buffer, skip 8
bytes, take 32. -/
def decrypt_key (init : List Nat) : List Nat := (init.reverse.drop 8).take 32

/-- decrypt_iv (src/main.rs line 51): reverse the 64 byte buffer, skip 40
bytes, take 16. -/
def decrypt_iv (init : List Nat) : List Nat := (init.reverse.drop 40).take 16

/-- The derivation rule of src/main.rs lines 45 to 53, paired as ((key and
IV of the cipher applied to inbound bytes), (key and IV of the cipher
applied to the outbound response)). Lines 55 to 67 apply the encrypt pair
to the data received from the client and lines 86 to 88 apply the decrypt
pair to the data sent to it. -/
def codeDerive (init : List Nat) : (List Nat × List Nat) × (List Nat × List Nat) :=
  ((encrypt_key init, encrypt_iv init), (decrypt_key init, decrypt_iv init))

/-- Error cases aborting a connection: ioError stands for a std io error
(read_exact or a write hitting the end of the stream), deserializeEof for
the cursor codec error propagated out of ReqPqMulti.parse. -/
inductive ConnError
  | ioError
  | deserializeEof
deriving DecidableEq

/-- The fixed pq constant (src/main.rs line 77): the little-endian bytes of
0x17ED48941A08F981. -/
def pqConst : List Nat := leBytes 8 0x17ED48941A08F981

/-- The 64 byte init buffer (src/main.rs lines 35 and 38): a zeroed buffer
of 64 bytes into which a single read call stores at most the first 56
stream bytes. The 8 tail bytes read into encrypted_init never reach this
buffer. -/
def buildInit (input : List Nat) : List Nat :=
  input.take 56 ++ List.replicate (64 - min 56 input.length) 0

/-- Reading the request payload (src/main.rs lines 65 to 66): a zeroed
buffer of the requested length receives min(requested, remaining) stream
bytes from a single read call; a short read is not an error. Returns the
buffer and the rest of the stream. -/
def readPacket (len : Nat) (s : List Nat) : List Nat × List Nat :=
  (s.take len ++ List.replicate (len - min len s.length) 0, s.drop len)

/-- Body of handle_connection once the init buffer is built, parameterized
over the derived key material in the pairing of codeDerive. The inbound
keystream is consumed by decrypting the init buffer (positions 0 to 63,
result unused), the length byte (position 64) and the payload (positions 65
onward); the outbound keystream encrypts the framed response with its tag
byte removed. -/
def connBody (keys : (List Nat × List Nat) × (List Nat × List Nat))
    (A : List Nat → List Nat → Nat → Nat) (nowNanos : Nat) (input : List Nat) :
    Except ConnError (List Nat) :=
  let s1 := input.drop (min 56 input.length)
  if s1.length < 8 then .error .ioError else
  let s2 := s1.drop 8
  if s2.length < 1 then .error .ioError else
  let ksIn := A keys.1.1 keys.1.2
  let ksOut := A keys.2.1 keys.2.2
  let plainLen := Nat.xor (s2.headD 0) (ksIn 64 % 256)
  let packet := (readPacket (plainLen * 4) (s2.drop 1)).1
  match ReqPqMulti.parse (xorKS ksIn 65 packet) with
  | .error _ => .error .deserializeEof
  | .ok (req, _) =>
    let res := ResPq.generate nowNanos req.nonce pqConst
    .ok (xorKS ksOut 0 ((abridgedPack res.ser).drop 1))

/-- handle_connection with an arbitrary derivation rule applied to the init
buffer. -/
def connOutputWith
    (derive : List Nat → (List Nat × List Nat) × (List Nat × List Nat))
    (A : List Nat → List Nat → Nat → Nat) (nowNanos : Nat) (input : List Nat) :
    Except ConnError (List Nat) :=
  connBody (derive (buildInit input)) A nowNanos input

/-- handle_connection (src/main.rs lines 32 to 100): the full connection
pipeline with the derivation rule of lines 45 to 53. -/
def connOutput : (List Nat → List Nat → Nat → Nat) → Nat → List Nat →
    Except ConnError (List Nat) :=
  connOutputWith codeDerive

/-- The accept loop of main (src/main.rs lines 21 to 28): connections are
handled in order; a failed connection has its error chain logged and the
loop continues with the next connection. -/
def serverRun (A : List Nat → List Nat → Nat → Nat) (nowNanos : Nat) :
    List (List Nat) → List (Except ConnError (List Nat))
  | [] => []
  | c :: rest => connOutput A nowNanos c :: serverRun A nowNanos rest

/-- Derivation rule exactly as claim C1 words it: the cipher for outbound
bytes keyed from header bytes 8 to 39 with IV bytes 40 to 55 in header
order, the cipher for inbound bytes keyed from the reversed header by
skipping 8 bytes and taking 32, then skipping a further 8 bytes and taking
16 for the IV. -/
def claimedDerive (init : List Nat) : (List Nat × List Nat) × (List Nat × List Nat) :=
  (((init.reverse.drop 8).take 32, (init.reverse.drop 48).take 16),
   ((init.drop 8).take 32, (init.drop 40).take 16))

/-- Derivation rule in the vocabulary of the specification with corrected
directions and offsets: byte i of the inbound key is header byte 8 + i and
byte i of the inbound IV is header byte 40 + i; byte i of the outbound key
is header byte 55 - i and byte i of the outbound IV is header byte 23 - i,
that is, the reversed header sliced at the same offsets as the forward
one. -/
def specDerive (b : List Nat) : (List Nat × List Nat) × (List Nat × List Nat) :=
  (((List.range 32).map fun i => b.getD (8 + i) 0,
    (List.range 16).map fun i => b.getD (40 + i) 0),
   ((List.range 32).map fun i => b.getD (55 - i) 0,
    (List.range 16).map fun i => b.getD (23 - i) 0))

/-- Serialization of the five ReqPqMulti fields in declaration order with
the same cursor codec used by ResPq.ser, as claim C8 describes it. -/
def reqSer (r : ReqPqMulti) : List Nat :=
  i64ser r.auth_key_id ++ i64ser r.message_id ++ u32ser r.message_length ++
    u32ser r.magic ++ r.nonce

/-- Constant zero keystream, used to instantiate the abstract cipher in
concrete runs; xor with it leaves the data unchanged. -/
def ksZero : List Nat → List Nat → Nat → Nat := fun _ _ _ => 0

/-- Keystream returning the first key byte at every position, used to make
concrete runs distinguish which key feeds which direction. -/
def ksHead : List Nat → List Nat → Nat → Nat := fun k _ _ => k.headD 0

/-! Supporting lemmas. -/

theorem leBytes_length (k n : Nat) : (leBytes k n).length = k := by
  induction k generalizing n with
  | zero => rfl
  | succ k ih => simp [leBytes, ih]

theorem fromLE_leBytes (k n : Nat) : fromLE (leBytes k n) = n % 256 ^ k := by
  induction k generalizing n with
  | zero => simp [leBytes, fromLE, Nat.mod_one]
  | succ k ih =>
      show n % 256 + 256 * fromLE (leBytes k (n / 256)) = n % 256 ^ (k + 1)
      rw [ih, pow_succ', Nat.mod_mul]

theorem toSigned64_emod (v : Int) (h1 : -(2 ^ 63) ≤ v) (h2 : v < 2 ^ 63) :
    toSigned64 (v % (2 ^ 64 : Int)).toNat = v := by
  unfold toSigned64
  split_ifs with h <;> omega

theorem i64ser_length (v : Int) : (i64ser v).length = 8 := by
  simp [i64ser, leBytes_length]

theorem u32ser_length (n : Nat) : (u32ser n).length = 4 := by
  simp [u32ser, leBytes_length]

theorem fromLE_i64ser (v : Int) : fromLE (i64ser v) = (v % (2 ^ 64 : Int)).toNat := by
  rw [i64ser, fromLE_leBytes]
  have h1 : (0 : Int) ≤ v % (2 ^ 64 : Int) := Int.emod_nonneg v (by norm_num)
  have h2 : v % (2 ^ 64 : Int) < 2 ^ 64 := Int.emod_lt_of_pos v (by norm_num)
  have : (v % (2 ^ 64 : Int)).toNat < 256 ^ 8 := by
    have : ((256 : Nat) ^ 8 : Nat) = 2 ^ 64 := by norm_num
    omega
  exact Nat.mod_eq_of_lt this

theorem i64_roundtrip (v : Int) (h1 : -(2 ^ 63) ≤ v) (h2 : v < 2 ^ 63) :
    toSigned64 (fromLE (i64ser v)) = v := by
  rw [fromLE_i64ser]
  exact toSigned64_emod v h1 h2

theorem fromLE_u32ser (n : Nat) (h : n < 2 ^ 32) : fromLE (u32ser n) = n := by
  rw [u32ser, fromLE_leBytes]
  have e : ((256 : Nat) ^ 4 : Nat) = 2 ^ 32 := by norm_num
  omega

theorem take_len_append (l₁ l₂ : List Nat) : (l₁ ++ l₂).take l₁.length = l₁ := by
  rw [List.take_append_of_le_length le_rfl, List.take_length]

theorem drop_len_append (l₁ l₂ : List Nat) : (l₁ ++ l₂).drop l₁.length = l₂ := by
  rw [List.drop_append_of_le_length le_rfl, List.drop_length, List.nil_append]

theorem okBind {ε α β : Type} (a : α) (f : α → Except ε β) :
    (Except.ok a >>= f) = f a := rfl

theorem errBind {ε α β : Type} (e : ε) (f : α → Except ε β) :
    ((Except.error e : Except ε α) >>= f) = Except.error e := rfl

theorem slice_eq_map (l : List Nat) (a b : Nat) (h : a + b ≤ l.length) :
    (l.drop a).take b = (List.range b).map fun i => l.getD (a + i) 0 := by
  apply List.ext_getElem
  · simp
    omega
  · intro i h1 h2
    simp only [List.getElem_take, List.getElem_drop, List.getElem_map, List.getElem_range]
    have hb : i < b := by simp at h2; exact h2
    rw [List.getD_eq_getElem _ 0 (by omega)]

theorem buildInit_length (input : List Nat) : (buildInit input).length = 64 := by
  simp [buildInit]

theorem codeDerive_eq_specDerive (b : List Nat) (h : b.length = 64) :
    codeDerive b = specDerive b := by
  have hrev : b.reverse.length = 64 := by simp [h]
  have hek : encrypt_key b = (List.range 32).map fun i => b.getD (8 + i) 0 :=
    slice_eq_map b 8 32 (by omega)
  have hev : encrypt_iv b = (List.range 16).map fun i => b.getD (40 + i) 0 :=
    slice_eq_map b 40 16 (by omega)
  have hdk : decrypt_key b = (List.range 32).map fun i => b.getD (55 - i) 0 := by
    rw [decrypt_key, slice_eq_map b.reverse 8 32 (by omega)]
    apply List.map_congr_left
    intro i hi
    simp only [List.mem_range] at hi
    rw [List.getD_eq_getElem _ 0 (by omega), List.getD_eq_getElem _ 0 (by omega)]
    rw [List.getElem_reverse]
    congr 1
    omega
  have hdv : decrypt_iv b = (List.range 16).map fun i => b.getD (23 - i) 0 := by
    rw [decrypt_iv, slice_eq_map b.reverse 40 16 (by omega)]
    apply List.map_congr_left
    intro i hi
    simp only [List.mem_range] at hi
    rw [List.getD_eq_getElem _ 0 (by omega), List.getD_eq_getElem _ 0 (by omega)]
    rw [List.getElem_reverse]
    congr 1
    omega
  simp [codeDerive, specDerive, hek, hev, hdk, hdv]

theorem decrypt_key_slices (b : List Nat) (h : b.length = 64) :
    decrypt_key b = ((b.drop 24).take 32).reverse := by
  rw [decrypt_key, List.drop_reverse, h, List.take_reverse]
  have h1 : (b.take 56).length = 56 := by simp [h]
  rw [h1]
  norm_num
  rw [List.drop_take]

theorem decrypt_iv_slices (b : List Nat) (h : b.length = 64) :
    decrypt_iv b = ((b.drop 8).take 16).reverse := by
  rw [decrypt_iv, List.drop_reverse, h, List.take_reverse]
  have h1 : (b.take 24).length = 24 := by simp [h]
  rw [h1]
  norm_num
  rw [List.drop_take]

theorem parse_closed (s : List Nat) :
    ReqPqMulti.parse s =
      if 40 ≤ s.length then
        .ok ({ auth_key_id := toSigned64 (fromLE (s.take 8)),
               message_id := toSigned64 (fromLE ((s.drop 8).take 8)),
               message_length := fromLE ((s.drop 16).take 4),
               magic := fromLE ((s.drop 20).take 4),
               nonce := (s.drop 24).take 16 }, s.drop 40)
      else .error .unexpectedEof := by
  by_cases h : 40 ≤ s.length
  · have e1 : deserI64 s = .ok (toSigned64 (fromLE (s.take 8)), s.drop 8) := by
      unfold deserI64
      rw [if_neg (by omega)]
    have e2 : deserI64 (s.drop 8) =
        .ok (toSigned64 (fromLE ((s.drop 8).take 8)), s.drop 16) := by
      unfold deserI64
      rw [if_neg (by simp only [List.length_drop]; omega)]
      norm_num [List.drop_drop]
    have e3 : deserU32 (s.drop 16) = .ok (fromLE ((s.drop 16).take 4), s.drop 20) := by
      unfold deserU32
      rw [if_neg (by simp only [List.length_drop]; omega)]
      norm_num [List.drop_drop]
    have e4 : deserU32 (s.drop 20) = .ok (fromLE ((s.drop 20).take 4), s.drop 24) := by
      unfold deserU32
      rw [if_neg (by simp only [List.length_drop]; omega)]
      norm_num [List.drop_drop]
    have e5 : deserBytes16 (s.drop 24) = .ok ((s.drop 24).take 16, s.drop 40) := by
      unfold deserBytes16
      rw [if_neg (by simp only [List.length_drop]; omega)]
      norm_num [List.drop_drop]
    rw [if_pos h]
    simp only [ReqPqMulti.parse, e1, e2, e3, e4, e5, okBind]
    rfl
  · rw [if_neg h]
    by_cases c1 : s.length < 8
    · have e1 : deserI64 s = .error .unexpectedEof := by
        unfold deserI64
        rw [if_pos c1]
      simp only [ReqPqMulti.parse, e1, errBind]
    · have e1 : deserI64 s = .ok (toSigned64 (fromLE (s.take 8)), s.drop 8) := by
        unfold deserI64
        rw [if_neg c1]
      by_cases c2 : s.length < 16
      · have e2 : deserI64 (s.drop 8) = .error .unexpectedEof := by
          unfold deserI64
          rw [if_pos (by simp only [List.length_drop]; omega)]
        simp only [ReqPqMulti.parse, e1, okBind, e2, errBind]
      · have e2 : deserI64 (s.drop 8) =
            .ok (toSigned64 (fromLE ((s.drop 8).take 8)), s.drop 16) := by
          unfold deserI64
          rw [if_neg (by simp only [List.length_drop]; omega)]
          norm_num [List.drop_drop]
        by_cases c3 : s.length < 20
        · have e3 : deserU32 (s.drop 16) = .error .unexpectedEof := by
            unfold deserU32
            rw [if_pos (by simp only [List.length_drop]; omega)]
          simp only [ReqPqMulti.parse, e1, okBind, e2, e3, errBind]
        · have e3 : deserU32 (s.drop 16) = .ok (fromLE ((s.drop 16).take 4), s.drop 20) := by
            unfold deserU32
            rw [if_neg (by simp only [List.length_drop]; omega)]
            norm_num [List.drop_drop]
          by_cases c4 : s.length < 24
          · have e4 : deserU32 (s.drop 20) = .error .unexpectedEof := by
              unfold deserU32
              rw [if_pos (by simp only [List.length_drop]; omega)]
            simp only [ReqPqMulti.parse, e1, okBind, e2, e3, e4, errBind]
          · have e4 : deserU32 (s.drop 20) = .ok (fromLE ((s.drop 20).take 4), s.drop 24) := by
              unfold deserU32
              rw [if_neg (by simp only [List.length_drop]; omega)]
              norm_num [List.drop_drop]
            have e5 : deserBytes16 (s.drop 24) = .error .unexpectedEof := by
              unfold deserBytes16
              rw [if_pos (by simp only [List.length_drop]; omega)]
            simp only [ReqPqMulti.parse, e1, okBind, e2, e3, e4, e5, errBind]

/-! Claim theorems. -/

set_option maxRecDepth 100000 in
/-- Claim C1, counterexample. At a concrete connection input the pipeline
prescribed by the claim, with the outbound cipher keyed from the forward
header slices and the inbound cipher keyed from the reversed header with the
IV taken after a further 8 byte skip, produces a different result from
handle_connection as implemented. -/
theorem c1_counterexample :
    connOutputWith claimedDerive ksHead 42
        (List.range 56 ++ List.replicate 8 0 ++ [2] ++ List.replicate 40 8) ≠
      connOutput ksHead 42
        (List.range 56 ++ List.replicate 8 0 ++ [2] ++ List.replicate 40 8) := by
  decide

/-- Claim C1, amended: for every keystream function, time and input stream,
handle_connection behaves as the pipeline whose inbound (client to server)
cipher is keyed with header bytes 8 to 39 and IV bytes 40 to 55 in header
order, and whose outbound (server to client) cipher is keyed from the
reversed 64 byte header buffer with key byte i equal to header byte 55 - i
and IV byte i equal to header byte 23 - i, that is, the reversed buffer
sliced at the same offsets 8 to 39 and 40 to 55 with no further skip. -/
theorem c1_amended (A : List Nat → List Nat → Nat → Nat) (t : Nat) (input : List Nat) :
    connOutput A t input = connOutputWith specDerive A t input := by
  unfold connOutput connOutputWith
  rw [codeDerive_eq_specDerive _ (buildInit_length input)]

/-- Claim C2, counterexample: for the all-zero and the all-0xFF 64 byte
headers the outbound and inbound derived keys are equal and the derived IVs
are equal, against the asserted universal asymmetry. -/
theorem c2_counterexample :
    (encrypt_key (List.replicate 64 0) = decrypt_key (List.replicate 64 0) ∧
      encrypt_iv (List.replicate 64 0) = decrypt_iv (List.replicate 64 0)) ∧
    (encrypt_key (List.replicate 64 255) = decrypt_key (List.replicate 64 255) ∧
      encrypt_iv (List.replicate 64 255) = decrypt_iv (List.replicate 64 255)) := by
  decide

/-- Claim C2, amended: on a 64 byte header the two derived keys coincide
exactly when the byte slice 8 to 39 equals the reversed byte slice 24 to 55,
and the two derived IVs coincide exactly when the slice 40 to 55 equals the
reversed slice 8 to 23; headers outside these symmetric cases give distinct
keys and IVs, but uniform headers such as all-zero and all-0xFF fall inside
them. -/
theorem c2_amended (init : List Nat) (h : init.length = 64) :
    (encrypt_key init = decrypt_key init ↔
      (init.drop 8).take 32 = ((init.drop 24).take 32).reverse) ∧
    (encrypt_iv init = decrypt_iv init ↔
      (init.drop 40).take 16 = ((init.drop 8).take 16).reverse) := by
  rw [decrypt_key_slices init h, decrypt_iv_slices init h]
  exact ⟨Iff.rfl, Iff.rfl⟩

/-- Witness for c2_amended at the all-zero header. -/
theorem c2_amended_witness :
    (List.replicate 64 0 : List Nat).length = 64 ∧
    ((encrypt_key (List.replicate 64 0) = decrypt_key (List.replicate 64 0) ↔
      ((List.replicate 64 0 : List Nat).drop 8).take 32 =
        (((List.replicate 64 0 : List Nat).drop 24).take 32).reverse) ∧
     (encrypt_iv (List.replicate 64 0) = decrypt_iv (List.replicate 64 0) ↔
      ((List.replicate 64 0 : List Nat).drop 40).take 16 =
        (((List.replicate 64 0 : List Nat).drop 8).take 16).reverse)) :=
  ⟨by decide, c2_amended (List.replicate 64 0) (by decide)⟩

theorem connBody_after8 (keys : (List Nat × List Nat) × (List Nat × List Nat))
    (A : List Nat → List Nat → Nat → Nat) (t : Nat) (i1 i2 : List Nat)
    (hlen : (i1.drop (min 56 i1.length)).length = (i2.drop (min 56 i2.length)).length)
    (hdrop : (i1.drop (min 56 i1.length)).drop 8 = (i2.drop (min 56 i2.length)).drop 8) :
    connBody keys A t i1 = connBody keys A t i2 := by
  simp only [connBody]
  rw [hlen, hdrop]

set_option maxRecDepth 100000 in
/-- Claim C3, counterexample: two concrete connection inputs differing only
in the 8 encrypted tail bytes of the header produce identical
handle_connection results, so the tail bytes are not part of the material
either cipher state is derived from and are never decrypted. -/
theorem c3_counterexample :
    connOutput ksZero 42
        (List.replicate 56 0 ++ List.replicate 8 0 ++ [10] ++ List.replicate 40 0) =
      connOutput ksZero 42
        (List.replicate 56 0 ++ List.replicate 8 7 ++ [10] ++ List.replicate 40 0) ∧
    (List.replicate 56 0 ++ List.replicate 8 0 ++ [10] ++ List.replicate 40 0 : List Nat) ≠
      List.replicate 56 0 ++ List.replicate 8 7 ++ [10] ++ List.replicate 40 0 := by
  refine ⟨by decide, by decide⟩

/-- Claim C3, amended: the derivation buffer of a connection is the 56 byte
stream prefix padded with 8 zero bytes; the 8 encrypted tail bytes that
follow on the wire never enter it, and the entire result of
handle_connection is independent of their values. -/
theorem c3_amended (A : List Nat → List Nat → Nat → Nat) (t : Nat)
    (pre tail1 tail2 rest : List Nat) (h1 : pre.length = 56)
    (h2 : tail1.length = 8) (h3 : tail2.length = 8) :
    buildInit (pre ++ tail1 ++ rest) = pre ++ List.replicate 8 0 ∧
    connOutput A t (pre ++ tail1 ++ rest) = connOutput A t (pre ++ tail2 ++ rest) := by
  have hmin1 : min 56 (pre ++ tail1 ++ rest).length = 56 := by
    simp only [List.length_append, h1, h2]
    omega
  have hmin2 : min 56 (pre ++ tail2 ++ rest).length = 56 := by
    simp only [List.length_append, h1, h3]
    omega
  have ht1 : (pre ++ tail1 ++ rest).take 56 = pre := by
    rw [List.append_assoc, ← h1, take_len_append]
  have ht2 : (pre ++ tail2 ++ rest).take 56 = pre := by
    rw [List.append_assoc, ← h1, take_len_append]
  have hb1 : buildInit (pre ++ tail1 ++ rest) = pre ++ List.replicate 8 0 := by
    unfold buildInit
    rw [hmin1, ht1]
  have hb2 : buildInit (pre ++ tail2 ++ rest) = pre ++ List.replicate 8 0 := by
    unfold buildInit
    rw [hmin2, ht2]
  have hd1 : (pre ++ tail1 ++ rest).drop (min 56 (pre ++ tail1 ++ rest).length) =
      tail1 ++ rest := by
    rw [hmin1, List.append_assoc, ← h1, drop_len_append]
  have hd2 : (pre ++ tail2 ++ rest).drop (min 56 (pre ++ tail2 ++ rest).length) =
      tail2 ++ rest := by
    rw [hmin2, List.append_assoc, ← h1, drop_len_append]
  refine ⟨hb1, ?_⟩
  unfold connOutput connOutputWith
  rw [hb1, hb2]
  apply connBody_after8
  · rw [hd1, hd2]
    simp only [List.length_append, h2, h3]
  · rw [hd1, hd2]
    have e1 : (tail1 ++ rest).drop 8 = rest := by
      rw [← h2, drop_len_append]
    have e2 : (tail2 ++ rest).drop 8 = rest := by
      rw [← h3, drop_len_append]
    rw [e1, e2]

/-- Witness for c3_amended at concrete prefix and tails. -/
theorem c3_amended_witness :
    (List.replicate 56 1 : List Nat).length = 56 ∧
    (List.replicate 8 2 : List Nat).length = 8 ∧
    (List.replicate 8 3 : List Nat).length = 8 ∧
    (buildInit (List.replicate 56 1 ++ List.replicate 8 2 ++ []) =
        List.replicate 56 1 ++ List.replicate 8 0 ∧
      connOutput ksZero 0 (List.replicate 56 1 ++ List.replicate 8 2 ++ []) =
        connOutput ksZero 0 (List.replicate 56 1 ++ List.replicate 8 3 ++ [])) :=
  ⟨by decide, by decide, by decide,
    c3_amended ksZero 0 (List.replicate 56 1) (List.replicate 8 2) (List.replicate 8 3) []
      (by decide) (by decide) (by decide)⟩

/-- Claim C4, counterexample: at the nanosecond counts 2 ^ 63 - 1 and 2 ^ 63
the strictly later generation time yields a strictly smaller message_id,
because the cast of the u128 nanosecond count to i64 wraps to negative. -/
theorem c4_counterexample :
    (2 ^ 63 - 1 : Nat) < 2 ^ 63 ∧
    (ResPq.generate (2 ^ 63) (List.replicate 16 0) pqConst).message_id <
      (ResPq.generate (2 ^ 63 - 1) (List.replicate 16 0) pqConst).message_id := by
  constructor
  · norm_num
  · show toSigned64 (2 ^ 63 % 2 ^ 64) < toSigned64 ((2 ^ 63 - 1) % 2 ^ 64)
    unfold toSigned64
    rw [if_neg (by norm_num), if_pos (by norm_num)]
    norm_num

/-- Claim C4, amended: generate echoes auth_key_id 0, the fixed magic, the
given nonce and pq, and the same server nonce on every invocation, and
message_id is strictly larger for a strictly later generation time as long
as the later nanosecond count stays below 2 ^ 63, the signed 64 bit range,
which holds until the year 2262. -/
theorem c4_amended (t : Nat) (n p : List Nat) (t2 : Nat) (n2 p2 : List Nat) :
    ((ResPq.generate t n p).auth_key_id = 0 ∧
      (ResPq.generate t n p).magic = 0x05162463 ∧
      (ResPq.generate t n p).nonce = n ∧
      (ResPq.generate t n p).pq = p ∧
      (ResPq.generate t n p).server_nonce = (ResPq.generate t2 n2 p2).server_nonce) ∧
    (t < t2 → t2 < 2 ^ 63 →
      (ResPq.generate t n p).message_id < (ResPq.generate t2 n2 p2).message_id) := by
  refine ⟨⟨rfl, rfl, rfl, rfl, rfl⟩, fun hlt hub => ?_⟩
  show toSigned64 (t % 2 ^ 64) < toSigned64 (t2 % 2 ^ 64)
  have e1 : t % 2 ^ 64 = t := Nat.mod_eq_of_lt (by omega)
  have e2 : t2 % 2 ^ 64 = t2 := Nat.mod_eq_of_lt (by omega)
  unfold toSigned64
  rw [e1, e2, if_pos (by omega), if_pos (by omega)]
  exact_mod_cast hlt

/-- Witness for c4_amended at times 1 and 2. -/
theorem c4_amended_witness :
    (1 : Nat) < 2 ∧ (2 : Nat) < 2 ^ 63 ∧
    (ResPq.generate 1 [] []).message_id < (ResPq.generate 2 [] []).message_id :=
  ⟨by norm_num, by norm_num,
    (c4_amended 1 [] [] 2 [] []).2 (by norm_num) (by norm_num)⟩

set_option maxRecDepth 100000 in
/-- Claim C5, counterexample: a 60 byte stream, short within the header
phase, fails with the io error of read_exact rather than with the codec
truncation error; and a connection announcing length unit 10 with only 4
payload bytes on the stream still succeeds, so the driver does not read
exactly 4 times the length unit from the stream before parsing. -/
theorem c5_counterexample :
    connOutput ksZero 42 (List.replicate 60 0) = .error .ioError ∧
    ConnError.ioError ≠ ConnError.deserializeEof ∧
    (connOutput ksZero 42
        (List.replicate 56 0 ++ List.replicate 8 0 ++ [10] ++
          List.replicate 4 0)).isOk = true := by
  refine ⟨by decide, by decide, by decide⟩

/-- Claim C5, amended: any stream shorter than the 65 bytes of the header
phase fails with the io error of read_exact and no response is produced,
while the payload read fills a zero initialized buffer of exactly the
announced length with min(announced, remaining) stream bytes, consuming
only what the stream holds. -/
theorem c5_amended (A : List Nat → List Nat → Nat → Nat) (t : Nat) (input : List Nat) :
    (input.length < 65 → connOutput A t input = .error .ioError) ∧
    (∀ len s, (readPacket len s).1.length = len ∧
      s.length - (readPacket len s).2.length = min len s.length) := by
  constructor
  · intro h
    unfold connOutput connOutputWith
    simp only [connBody]
    by_cases hc : (input.drop (min 56 input.length)).length < 8
    · rw [if_pos hc]
    · simp only [List.length_drop] at hc
      rw [if_neg (by simp only [List.length_drop]; omega),
        if_pos (by simp only [List.length_drop]; omega)]
  · intro len s
    constructor
    · simp only [readPacket, List.length_append, List.length_take, List.length_replicate]
      omega
    · simp only [readPacket, List.length_drop]
      omega

/-- Witness for c5_amended at a 64 byte stream. -/
theorem c5_amended_witness :
    (List.replicate 64 5 : List Nat).length < 65 ∧
    connOutput ksZero 0 (List.replicate 64 5) = .error .ioError :=
  ⟨by decide, (c5_amended ksZero 0 (List.replicate 64 5)).1 (by decide)⟩

/-- Claim C6, counterexample: a 44 byte framed payload carrying 4 trailing
bytes beyond the five decoded fields parses successfully instead of
failing, so unconsumed trailing bytes are not rejected and the decoded size
need not match the framed length. -/
theorem c6_counterexample :
    ReqPqMulti.parse (List.replicate 44 0) =
      .ok ({ auth_key_id := 0, message_id := 0, message_length := 0, magic := 0,
             nonce := List.replicate 16 0 }, List.replicate 4 0) ∧
    (44 : Nat) ≠ 40 := by
  refine ⟨by decide, by decide⟩

/-- Claim C6, amended: parse reads the five fields in fixed order and fails
with the codec truncation error exactly when the payload holds fewer than
the 40 bytes of the fixed fields; on success the bytes beyond offset 40 are
returned unconsumed and never compared against the framed length or the
declared message length. -/
theorem c6_amended (s : List Nat) :
    ((ReqPqMulti.parse s).isOk = true ↔ 40 ≤ s.length) ∧
    (s.length < 40 → ReqPqMulti.parse s = .error .unexpectedEof) ∧
    (∀ r rest, ReqPqMulti.parse s = .ok (r, rest) → rest = s.drop 40) := by
  by_cases h : 40 ≤ s.length
  · refine ⟨by rw [parse_closed, if_pos h]; simp [Except.isOk, Except.toBool, h],
      fun hl => absurd hl (by omega), fun r rest hr => ?_⟩
    rw [parse_closed, if_pos h] at hr
    simp only [Except.ok.injEq, Prod.mk.injEq] at hr
    exact hr.2.symm
  · refine ⟨?_, fun _ => by rw [parse_closed, if_neg h], fun r rest hr => ?_⟩
    · rw [parse_closed, if_neg h]
      simp [Except.isOk, Except.toBool, h]
    · rw [parse_closed, if_neg h] at hr
      exact (Except.noConfusion hr)

/-- Witness for c6_amended at payloads of 39, 40 and 44 bytes. -/
theorem c6_amended_witness :
    ReqPqMulti.parse (List.replicate 39 0) = .error .unexpectedEof ∧
    ((ReqPqMulti.parse (List.replicate 40 0)).isOk = true ↔
      40 ≤ (List.replicate 40 0 : List Nat).length) ∧
    List.replicate 4 0 = (List.replicate 44 0 : List Nat).drop 40 :=
  ⟨(c6_amended (List.replicate 39 0)).2.1 (by decide),
    (c6_amended (List.replicate 40 0)).1,
    (c6_amended (List.replicate 44 0)).2.2
      { auth_key_id := 0, message_id := 0, message_length := 0, magic := 0,
        nonce := List.replicate 16 0 } (List.replicate 4 0) (by decide)⟩

set_option maxRecDepth 100000 in
/-- Claim C7, counterexample: at a concrete connection handled with the
identity keystream the bytes written are the length byte 21 followed by the
serialized response, not the serialized response alone; the byte removed
before encryption is the transport tag 0xef, not the length indicator. -/
theorem c7_counterexample :
    connOutput ksZero 42
        (List.replicate 56 0 ++ List.replicate 8 0 ++ [10] ++ List.replicate 40 0) =
      .ok (21 :: (ResPq.generate 42 (List.replicate 16 0) pqConst).ser) ∧
    (21 :: (ResPq.generate 42 (List.replicate 16 0) pqConst).ser) ≠
      (ResPq.generate 42 (List.replicate 16 0) pqConst).ser := by
  refine ⟨by decide, by decide⟩

theorem ser_length_84 (t : Nat) (nonce : List Nat) (h : nonce.length = 16) :
    (ResPq.generate t nonce pqConst).ser.length = 84 := by
  have hbs : (bytesSer pqConst).length = 12 := by decide
  have hvec : (vecI64ser [toSigned64 0xd09d1d85de64fd85]).length = 16 := by decide
  simp only [ResPq.ser, ResPq.generate, List.length_append, i64ser_length, u32ser_length,
    hbs, hvec, h, SERVER_NONCE, leBytes_length]

/-- Claim C7, amended: for every generation time and 16 byte nonce, packing
the serialized response with the Abridged transport yields the transport
tag byte 0xef, then the length byte 21 (84 bytes in units of 4), then the
84 serialized bytes; the single byte stripped before encryption is the
leading transport tag, so the length byte is retained and sent. -/
theorem c7_amended (t : Nat) (nonce : List Nat) (h : nonce.length = 16) :
    abridgedPack (ResPq.generate t nonce pqConst).ser =
      0xef :: 21 :: (ResPq.generate t nonce pqConst).ser ∧
    (abridgedPack (ResPq.generate t nonce pqConst).ser).drop 1 =
      21 :: (ResPq.generate t nonce pqConst).ser := by
  have hlen := ser_length_84 t nonce h
  have hpack : abridgedPack (ResPq.generate t nonce pqConst).ser =
      0xef :: 21 :: (ResPq.generate t nonce pqConst).ser := by
    unfold abridgedPack
    rw [hlen]
    norm_num
  exact ⟨hpack, by rw [hpack]; rfl⟩

/-- Witness for c7_amended at the all-0xAB nonce. -/
theorem c7_amended_witness :
    (List.replicate 16 0xAB : List Nat).length = 16 ∧
    (abridgedPack (ResPq.generate 7 (List.replicate 16 0xAB) pqConst).ser =
       0xef :: 21 :: (ResPq.generate 7 (List.replicate 16 0xAB) pqConst).ser ∧
     (abridgedPack (ResPq.generate 7 (List.replicate 16 0xAB) pqConst).ser).drop 1 =
       21 :: (ResPq.generate 7 (List.replicate 16 0xAB) pqConst).ser) :=
  ⟨by decide, c7_amended 7 (List.replicate 16 0xAB) (by decide)⟩

/-- Claim C8: serializing the five ReqPqMulti fields in order with the
little-endian cursor codec and parsing the result returns the original
record exactly, with the cursor fully consumed. -/
theorem c8_roundtrip (r : ReqPqMulti)
    (h1 : -(2 ^ 63) ≤ r.auth_key_id) (h2 : r.auth_key_id < 2 ^ 63)
    (h3 : -(2 ^ 63) ≤ r.message_id) (h4 : r.message_id < 2 ^ 63)
    (h5 : r.message_length < 2 ^ 32) (h6 : r.magic < 2 ^ 32)
    (h7 : r.nonce.length = 16) :
    ReqPqMulti.parse (reqSer r) = .ok (r, []) := by
  have hlen : (reqSer r).length = 40 := by
    simp only [reqSer, List.length_append, i64ser_length, u32ser_length, h7]
  rw [parse_closed, if_pos (by omega)]
  have hser : reqSer r = i64ser r.auth_key_id ++ (i64ser r.message_id ++
      (u32ser r.message_length ++ (u32ser r.magic ++ r.nonce))) := by
    simp only [reqSer, List.append_assoc]
  have eA : (reqSer r).take 8 = i64ser r.auth_key_id := by
    rw [hser, show (8 : Nat) = (i64ser r.auth_key_id).length from (i64ser_length _).symm,
      take_len_append]
  have dA : (reqSer r).drop 8 =
      i64ser r.message_id ++ (u32ser r.message_length ++ (u32ser r.magic ++ r.nonce)) := by
    rw [hser, show (8 : Nat) = (i64ser r.auth_key_id).length from (i64ser_length _).symm,
      drop_len_append]
  have eB : ((reqSer r).drop 8).take 8 = i64ser r.message_id := by
    rw [dA, show (8 : Nat) = (i64ser r.message_id).length from (i64ser_length _).symm,
      take_len_append]
  have dB : (reqSer r).drop 16 =
      u32ser r.message_length ++ (u32ser r.magic ++ r.nonce) := by
    rw [show (16 : Nat) = 8 + 8 from rfl, ← List.drop_drop, dA,
      show (8 : Nat) = (i64ser r.message_id).length from (i64ser_length _).symm,
      drop_len_append]
  have eC : ((reqSer r).drop 16).take 4 = u32ser r.message_length := by
    rw [dB, show (4 : Nat) = (u32ser r.message_length).length from (u32ser_length _).symm,
      take_len_append]
  have dC : (reqSer r).drop 20 = u32ser r.magic ++ r.nonce := by
    rw [show (20 : Nat) = 16 + 4 from rfl, ← List.drop_drop, dB,
      show (4 : Nat) = (u32ser r.message_length).length from (u32ser_length _).symm,
      drop_len_append]
  have eD : ((reqSer r).drop 20).take 4 = u32ser r.magic := by
    rw [dC, show (4 : Nat) = (u32ser r.magic).length from (u32ser_length _).symm,
      take_len_append]
  have dD : (reqSer r).drop 24 = r.nonce := by
    rw [show (24 : Nat) = 20 + 4 from rfl, ← List.drop_drop, dC,
      show (4 : Nat) = (u32ser r.magic).length from (u32ser_length _).symm,
      drop_len_append]
  have eE : ((reqSer r).drop 24).take 16 = r.nonce := by
    rw [dD, ← h7, List.take_length]
  have dE : (reqSer r).drop 40 = [] := List.drop_of_length_le (by omega)
  rw [eA, eB, eC, eD, eE, dE]
  rw [i64_roundtrip r.auth_key_id h1 h2, i64_roundtrip r.message_id h3 h4]
  rw [fromLE_u32ser r.message_length h5, fromLE_u32ser r.magic h6]

/-- Witness for c8_roundtrip at a concrete request record. -/
theorem c8_roundtrip_witness :
    ReqPqMulti.parse (reqSer
        { auth_key_id := -5, message_id := 123456789, message_length := 40,
          magic := 0xbe7e8ef1, nonce := List.replicate 16 0xab }) =
      .ok ({ auth_key_id := -5, message_id := 123456789, message_length := 40,
             magic := 0xbe7e8ef1, nonce := List.replicate 16 0xab }, []) :=
  c8_roundtrip _ (by norm_num) (by norm_num) (by norm_num) (by norm_num)
    (by norm_num) (by norm_num) (by decide)

/-- Claim C9: the accept loop handles every incoming connection, also after
arbitrary failures of earlier connections, and the outcome of each
connection depends only on its own input stream, so a failed connection is
isolated and never stops the server. -/
theorem c9_isolation (A : List Nat → List Nat → Nat → Nat) (t : Nat)
    (conns : List (List Nat)) :
    (serverRun A t conns).length = conns.length ∧
    ∀ i, i < conns.length →
      (serverRun A t conns).getD i (.error .ioError) =
        connOutput A t (conns.getD i []) := by
  induction conns with
  | nil =>
      refine ⟨rfl, fun i hi => absurd hi (by simp)⟩
  | cons c rest ih =>
      refine ⟨by simpa [serverRun] using ih.1, fun i hi => ?_⟩
      cases i with
      | zero => rfl
      | succ n =>
          simpa [serverRun, List.getD_cons_succ] using
            ih.2 n (by simpa using Nat.lt_of_succ_lt_succ hi)

/-- Witness for c9_isolation: the second connection of a batch whose first
connection fails is still handled normally. -/
theorem c9_isolation_witness :
    (serverRun ksZero 0 [[], List.replicate 70 0]).getD 1 (.error .ioError) =
      connOutput ksZero 0 ([[], List.replicate 70 0].getD 1 []) :=
  (c9_isolation ksZero 0 [[], List.replicate 70 0]).2 1 (by decide)

/-- Claim C10: every generated response carries message_length zero, for
all times, nonces and pq values, and its serialization therefore holds four
zero bytes at offsets 16 to 19 on the wire. -/
theorem c10_message_length_zero (t : Nat) (nonce pq : List Nat) :
    (ResPq.generate t nonce pq).message_length = 0 ∧
    ((ResPq.generate t nonce pq).ser.drop 16).take 4 = [0, 0, 0, 0] := by
  refine ⟨rfl, ?_⟩
  have hser : (ResPq.generate t nonce pq).ser =
      i64ser (ResPq.generate t nonce pq).auth_key_id ++
        (i64ser (ResPq.generate t nonce pq).message_id ++
          (u32ser (ResPq.generate t nonce pq).message_length ++
            (u32ser (ResPq.generate t nonce pq).magic ++
              ((ResPq.generate t nonce pq).nonce ++
                ((ResPq.generate t nonce pq).server_nonce ++
                  (bytesSer (ResPq.generate t nonce pq).pq ++
                    vecI64ser (ResPq.generate t nonce pq).server_public_key_fingerprints)))))) := by
    simp only [ResPq.ser, List.append_assoc]
  have dA : (ResPq.generate t nonce pq).ser.drop 8 =
      i64ser (ResPq.generate t nonce pq).message_id ++
        (u32ser (ResPq.generate t nonce pq).message_length ++
          (u32ser (ResPq.generate t nonce pq).magic ++
            ((ResPq.generate t nonce pq).nonce ++
              ((ResPq.generate t nonce pq).server_nonce ++
                (bytesSer (ResPq.generate t nonce pq).pq ++
                  vecI64ser (ResPq.generate t nonce pq).server_public_key_fingerprints))))) := by
    rw [hser, show (8 : Nat) = (i64ser (ResPq.generate t nonce pq).auth_key_id).length from
      (i64ser_length _).symm, drop_len_append]
  have d16 : (ResPq.generate t nonce pq).ser.drop 16 =
      u32ser (ResPq.generate t nonce pq).message_length ++
        (u32ser (ResPq.generate t nonce pq).magic ++
          ((ResPq.generate t nonce pq).nonce ++
            ((ResPq.generate t nonce pq).server_nonce ++
              (bytesSer (ResPq.generate t nonce pq).pq ++
                vecI64ser (ResPq.generate t nonce pq).server_public_key_fingerprints)))) := by
    rw [show (16 : Nat) = 8 + 8 from rfl, ← List.drop_drop, dA,
      show (8 : Nat) = (i64ser (ResPq.generate t nonce pq).message_id).length from
        (i64ser_length _).symm, drop_len_append]
  rw [d16]
  show ((u32ser 0 ++ _).take 4) = [0, 0, 0, 0]
  rfl

end TgSrv
